import Mathlib

/-!
Shallow embedding of the typed memory-access facade of py-desmume
(`src/desmume/emulator.py`): `DeSmuME_Memory.read` / `write` (the range
codec), `MemoryAccessor.__getitem__` / `__setitem__`, the
`RegisterAccessor` (positional and alias register access), the watchpoint
registration methods, and `DeSmuME_Memory.read_string`.

The native emulator library (the spec's MemoryPort) is external to the
repository; it is modelled as an opaque structure of read functions, and
every call the facade makes into it is recorded in an explicit trace so
that call-count properties ("no MemoryPort call is made", "exactly one
unit write") can be stated.
-/

namespace Desmume

/-- Python-level exceptions the facade can raise: `ValueError` (invalid
size / invalid register / `bytearray` negative count) and `IndexError`
(short `values` list in `write`). -/
inductive PyErr
  | valueError
  | indexError
deriving DecidableEq, Repr

/-- One unit operation issued against the native library, i.e. one call of
a `desmume_memory_read_*` / `desmume_memory_write_*` entry point.  The
writes carry the value after the ctypes truncation (`c_uint8` / `c_uint16`
/ `c_uint32`); there are no signed write entry points in the source. -/
inductive Call
  | readByte (addr : Int)
  | readByteSigned (addr : Int)
  | readShort (addr : Int)
  | readShortSigned (addr : Int)
  | readLong (addr : Int)
  | readLongSigned (addr : Int)
  | writeByte (addr : Int) (v : Nat)
  | writeShort (addr : Int) (v : Nat)
  | writeLong (addr : Int) (v : Nat)
deriving DecidableEq, Repr

/-- Whether a trace element is one of the three unsigned unit-write entry
points (`desmume_memory_write_byte` / `_short` / `_long`). -/
def Call.isUnsignedWrite : Call → Bool
  | .writeByte _ _ => true
  | .writeShort _ _ => true
  | .writeLong _ _ => true
  | _ => false

/-- The read surface of the external native library (MemoryPort).  The
ctypes `restype` declarations make the unsigned reads return `c_uint8` /
`c_uint16` / `c_uint32` values (modelled as `Nat`) and the signed reads
return `c_int8` / `c_int16` / `c_int32` values (modelled as `Int`).
Addresses are Python ints, modelled as `Int`. -/
structure MemoryPort where
  readByte : Int → Nat
  readByteSigned : Int → Int
  readShort : Int → Nat
  readShortSigned : Int → Int
  readLong : Int → Nat
  readLongSigned : Int → Int

/-- Python `range(start, stop, step)` for a positive `step` (the facade
only ever builds ranges with step 1, 2 or 4): the addresses
`start, start+step, start+2*step, … < stop`, empty when `stop ≤ start`. -/
def pyRange (start stop step : Int) : List Int :=
  (List.range (if stop ≤ start then 0 else ((stop - start - 1) / step + 1).toNat)).map
    (fun (i : Nat) => start + step * (i : Int))

/-- The three result shapes of `DeSmuME_Memory.read`: a decoded scalar
(`int`), a raw byte block (`bytes`), or an ordered list of decoded
integers (`List[int]`). -/
inductive ReadResult
  | scalar (v : Int)
  | block (b : List Nat)
  | ints (l : List Int)
deriving DecidableEq, Repr

/-- Python subscripting `result[i]` on a read result: `bytes[i]` yields the
unsigned byte as an int, `list[i]` yields the element; a scalar `int` is
not subscriptable. -/
def ReadResult.index (r : ReadResult) (i : Nat) : Option Int :=
  match r with
  | .scalar _ => none
  | .block b => (b.get? i).map (fun x => (x : Int))
  | .ints l => l.get? i

/-- Embedding of `DeSmuME_Memory.read(start, end, size, signed)`.  `size`
is `Option Int` because `MemoryAccessor` passes a slice's step, which may
be `None`; the source starts with `if size is None: size = 1`.  Returns
the Python result (or the raised exception) together with the trace of
native unit reads, in call order.  On the range path with
`signed == False and size == 1` the source allocates
`bytearray(int(end - start))` before reading; for `end < start` that
constructor call raises `ValueError` (negative count) before any native
read. -/
def DeSmuME_Memory.read (port : MemoryPort) (start stop : Int)
    (size? : Option Int) (signed : Bool) :
    Except PyErr ReadResult × List Call :=
  let size := size?.getD 1
  if start = stop then
    if signed then
      if size = 1 then (.ok (.scalar (port.readByteSigned start)), [.readByteSigned start])
      else if size = 2 then (.ok (.scalar (port.readShortSigned start)), [.readShortSigned start])
      else if size = 4 then (.ok (.scalar (port.readLongSigned start)), [.readLongSigned start])
      else (.error .valueError, [])
    else
      if size = 1 then (.ok (.scalar (port.readByte start)), [.readByte start])
      else if size = 2 then (.ok (.scalar (port.readShort start)), [.readShort start])
      else if size = 4 then (.ok (.scalar (port.readLong start)), [.readLong start])
      else (.error .valueError, [])
  else
    if signed then
      if size = 1 then
        (.ok (.ints ((pyRange start stop size).map port.readByteSigned)),
         (pyRange start stop size).map Call.readByteSigned)
      else if size = 2 then
        (.ok (.ints ((pyRange start stop size).map port.readShortSigned)),
         (pyRange start stop size).map Call.readShortSigned)
      else if size = 4 then
        (.ok (.ints ((pyRange start stop size).map port.readLongSigned)),
         (pyRange start stop size).map Call.readLongSigned)
      else (.error .valueError, [])
    else
      if size = 1 then
        if stop - start < 0 then (.error .valueError, [])
        else
          (.ok (.block ((pyRange start stop size).map port.readByte)),
           (pyRange start stop size).map Call.readByte)
      else if size = 2 then
        (.ok (.ints ((pyRange start stop size).map (fun a => (port.readShort a : Int)))),
         (pyRange start stop size).map Call.readShort)
      else if size = 4 then
        (.ok (.ints ((pyRange start stop size).map (fun a => (port.readLong a : Int)))),
         (pyRange start stop size).map Call.readLong)
      else (.error .valueError, [])

/-- One write loop of `DeSmuME_Memory.write`: walk the enumerated
addresses, looking up `value[i]` (raising `IndexError` when the list is
too short, after the writes already issued) and emitting one unit write of
the ctypes-truncated value (`value[i] % m`, `m` = 2^8 / 2^16 / 2^32) per
address. -/
def writeUnits (mk : Int → Nat → Call) (m : Int) :
    List Int → List Int → Nat → Except PyErr Unit × List Call
  | [], _, _ => (.ok (), [])
  | a :: rest, value, i =>
    if h : i < value.length then
      let c := mk a ((value.get ⟨i, h⟩ % m).toNat)
      let r := writeUnits mk m rest value (i + 1)
      (r.1, c :: r.2)
    else (.error .indexError, [])

/-- Embedding of `DeSmuME_Memory.write(start, end, size, value)`.  The
source first bumps `end` to `start + 1` when `start == end`
("write at least one"), then dispatches on `size == 1 / 2 / 4` (a `None`
step coming from a slice matches none of these and falls to
`ValueError`), writing `value[i]` with the unsigned unit write of the
given size at each address of `range(start, end, size)`. -/
def DeSmuME_Memory.write (start stop : Int) (size? : Option Int)
    (value : List Int) : Except PyErr Unit × List Call :=
  let stop2 := if start = stop then stop + 1 else stop
  if size? = some 1 then
    writeUnits Call.writeByte 256 (pyRange start stop2 1) value 0
  else if size? = some 2 then
    writeUnits Call.writeShort 65536 (pyRange start stop2 2) value 0
  else if size? = some 4 then
    writeUnits Call.writeLong 4294967296 (pyRange start stop2 4) value 0
  else (.error .valueError, [])

/-- A slice-or-int subscript key as used by `MemoryAccessor`: `mem[i]` or
`mem[a:b]` / `mem[a:b:s]` (a stepless slice has `step = None`). -/
inductive MemKey
  | idx (i : Int)
  | slice (start stop : Int) (step : Option Int)

/-- Embedding of `MemoryAccessor.__getitem__`: an int key reads one byte
(`read(key, key, 1, signed)`); a slice key forwards
`read(key.start, key.stop, key.step, signed)` with the step possibly
`None`. -/
def MemoryAccessor.getitem (signed : Bool) (port : MemoryPort) :
    MemKey → Except PyErr ReadResult × List Call
  | .idx i => DeSmuME_Memory.read port i i (some 1) signed
  | .slice a b st => DeSmuME_Memory.read port a b st signed

/-- Embedding of the slice branch of `MemoryAccessor.__setitem__`:
forwards `write(key.start, key.stop, key.step, value)` with the step
possibly `None`. -/
def MemoryAccessor.setitemSlice (a b : Int) (st : Option Int)
    (value : List Int) : Except PyErr Unit × List Call :=
  DeSmuME_Memory.write a b st value

/-- The unit write call `write` issues for a valid size `s ∈ {1,2,4}` at
address `a` with (pre-truncation) value `x`: the unsigned entry point of
size `s`, with the value truncated mod 2^(8·s). -/
def unsignedWriteCall (s a x : Int) : Call :=
  if s = 1 then .writeByte a ((x % 256).toNat)
  else if s = 2 then .writeShort a ((x % 65536).toNat)
  else .writeLong a ((x % 4294967296).toNat)

/-- Decoded unit read of size `s ∈ {1,2,4}` and the given signedness at
address `a`: the value the matching native read entry point returns
(abbreviation used in theorem statements about the range path). -/
def unitRead (port : MemoryPort) (signed : Bool) (s : Int) (a : Int) : Int :=
  if signed then
    if s = 1 then port.readByteSigned a
    else if s = 2 then port.readShortSigned a
    else port.readLongSigned a
  else
    if s = 1 then (port.readByte a : Int)
    else if s = 2 then (port.readShort a : Int)
    else (port.readLong a : Int)

/-- MemoryPort instance whose reads all return 0 (used to instantiate
universally quantified theorems at a concrete port). -/
def zeroPort : MemoryPort :=
  { readByte := fun _ => 0
    readByteSigned := fun _ => 0
    readShort := fun _ => 0
    readShortSigned := fun _ => 0
    readLong := fun _ => 0
    readLongSigned := fun _ => 0 }

/-- Modelled from the spec: the named-register store of the external
native library (MemoryPort), which is not part of this repository.  Per
the spec's MemoryPort contract, `write-register(name, value)` sets the
register and `read-register(name)` returns its integer value, keyed by
the full name string (context prefix concatenated with the short name). -/
structure RegState where
  regs : String → Int

/-- Effect of `desmume_memory_write_register(name, value)` on the modelled
register store: point update at the full name string. -/
def RegState.write (s : RegState) (name : String) (v : Int) : RegState :=
  ⟨fun n => if n = name then v else s.regs n⟩

/-- One named-register operation issued against the native library
(`desmume_memory_read_register` / `desmume_memory_write_register`),
carrying the full name string (context prefix ++ short name). -/
inductive RegCall
  | read (name : String)
  | write (name : String) (v : Int)
deriving DecidableEq, Repr

/-- Embedding of the `RegisterAccessor.rN` property getter (the source has
sixteen such properties, `r0` … `r15`, each reading the native register
named `self.prefix + "rN"`): returns the value and the single issued
named-register read. -/
def RegisterAccessor.rget (pfx : String) (n : Nat) (s : RegState) :
    Int × List RegCall :=
  (s.regs (pfx ++ "r" ++ toString n), [.read (pfx ++ "r" ++ toString n)])

/-- Embedding of the `RegisterAccessor.rN` property setter: writes the
native register named `self.prefix + "rN"` and records the single issued
named-register write. -/
def RegisterAccessor.rset (pfx : String) (n : Nat) (v : Int) (s : RegState) :
    RegState × List RegCall :=
  (s.write (pfx ++ "r" ++ toString n) v, [.write (pfx ++ "r" ++ toString n) v])

/-- Embedding of the `RegisterAccessor.cpsr` property getter (register
name `self.prefix + "cpsr"`). -/
def RegisterAccessor.cpsrGet (pfx : String) (s : RegState) : Int × List RegCall :=
  (s.regs (pfx ++ "cpsr"), [.read (pfx ++ "cpsr")])

/-- Embedding of the `RegisterAccessor.cpsr` property setter. -/
def RegisterAccessor.cpsrSet (pfx : String) (v : Int) (s : RegState) :
    RegState × List RegCall :=
  (s.write (pfx ++ "cpsr") v, [.write (pfx ++ "cpsr") v])

/-- Embedding of the `RegisterAccessor.spsr` property getter (register
name `self.prefix + "spsr"`). -/
def RegisterAccessor.spsrGet (pfx : String) (s : RegState) : Int × List RegCall :=
  (s.regs (pfx ++ "spsr"), [.read (pfx ++ "spsr")])

/-- Embedding of the `RegisterAccessor.spsr` property setter. -/
def RegisterAccessor.spsrSet (pfx : String) (v : Int) (s : RegState) :
    RegState × List RegCall :=
  (s.write (pfx ++ "spsr") v, [.write (pfx ++ "spsr") v])

/-- Embedding of the `RegisterAccessor.sp` alias getter: `return self.r13`. -/
def RegisterAccessor.sp (pfx : String) (s : RegState) : Int × List RegCall :=
  RegisterAccessor.rget pfx 13 s

/-- Embedding of the `RegisterAccessor.sp` alias setter: `self.r13 = value`. -/
def RegisterAccessor.spSet (pfx : String) (v : Int) (s : RegState) :
    RegState × List RegCall :=
  RegisterAccessor.rset pfx 13 v s

/-- Embedding of the `RegisterAccessor.lr` alias getter: `return self.r14`. -/
def RegisterAccessor.lr (pfx : String) (s : RegState) : Int × List RegCall :=
  RegisterAccessor.rget pfx 14 s

/-- Embedding of the `RegisterAccessor.lr` alias setter: `self.r14 = value`. -/
def RegisterAccessor.lrSet (pfx : String) (v : Int) (s : RegState) :
    RegState × List RegCall :=
  RegisterAccessor.rset pfx 14 v s

/-- Embedding of the `RegisterAccessor.pc` alias getter: `return self.r15`. -/
def RegisterAccessor.pc (pfx : String) (s : RegState) : Int × List RegCall :=
  RegisterAccessor.rget pfx 15 s

/-- Embedding of the `RegisterAccessor.pc` alias setter: `self.r15 = value`. -/
def RegisterAccessor.pcSet (pfx : String) (v : Int) (s : RegState) :
    RegState × List RegCall :=
  RegisterAccessor.rset pfx 15 v s

/-- Embedding of `RegisterAccessor.__getitem__(item)`: sixteen sequential
tests `if item == k: return self.rk` (each an early return), then
`raise ValueError("Invalid register")` when none matched. -/
def RegisterAccessor.getitem (pfx : String) (s : RegState) (item : Int) :
    Except PyErr Int × List RegCall :=
  let g := fun (n : Nat) =>
    ((Except.ok (RegisterAccessor.rget pfx n s).1 : Except PyErr Int),
     (RegisterAccessor.rget pfx n s).2)
  if item = 0 then g 0
  else if item = 1 then g 1
  else if item = 2 then g 2
  else if item = 3 then g 3
  else if item = 4 then g 4
  else if item = 5 then g 5
  else if item = 6 then g 6
  else if item = 7 then g 7
  else if item = 8 then g 8
  else if item = 9 then g 9
  else if item = 10 then g 10
  else if item = 11 then g 11
  else if item = 12 then g 12
  else if item = 13 then g 13
  else if item = 14 then g 14
  else if item = 15 then g 15
  else (.error .valueError, [])

/-- One branch of `RegisterAccessor.__setitem__`: the source's sixteen
`if item == k: self.rk = value` statements are sequential and do NOT
return early, so each branch either performs the property write (when the
index matches) or leaves the state unchanged, and control always falls
through to the next branch. -/
def RegisterAccessor.setStep (pfx : String) (item v : Int)
    (acc : RegState × List RegCall) (k : Nat) : RegState × List RegCall :=
  if item = (k : Int) then
    ((RegisterAccessor.rset pfx k v acc.1).1,
     acc.2 ++ (RegisterAccessor.rset pfx k v acc.1).2)
  else acc

/-- Embedding of `RegisterAccessor.__setitem__(item, value)`: run all
sixteen sequential `if item == k` branches in order (no early return in
the source), then unconditionally `raise ValueError("Invalid register")`.
Returns the raised error together with the final register store and the
trace of named-register writes issued before the raise. -/
def RegisterAccessor.setitem (pfx : String) (item v : Int) (s : RegState) :
    Except PyErr Unit × RegState × List RegCall :=
  let acc := (List.range 16).foldl (RegisterAccessor.setStep pfx item v) (s, [])
  (.error .valueError, acc.1, acc.2)

/-- Signature of a user memory callback, `(address, size) -> None`
(`MemoryCbFn` in the source). -/
def MemoryCbFn : Type := Int → Int → Unit

/-- A native callback trampoline produced by the ctypes `MEMORY_CB_FN`
CFUNCTYPE wrapper around a user callback. -/
structure NativeTrampoline where
  fn : MemoryCbFn

/-- Wrapping of a user callback into a native trampoline
(`MEMORY_CB_FN(callback)` in the source). -/
def MEMORY_CB_FN (cb : MemoryCbFn) : NativeTrampoline := ⟨cb⟩

/-- One watchpoint-registration call issued against the native library
(`desmume_memory_register_write` / `_read` / `_exec`), carrying the
address, the watched span size, and the trampoline (or `None` for
removal). -/
inductive WatchCall
  | registerWrite (address : Int) (size : Int) (cb : Option NativeTrampoline)
  | registerRead (address : Int) (size : Int) (cb : Option NativeTrampoline)
  | registerExec (address : Int) (size : Int) (cb : Option NativeTrampoline)

/-- Embedding of `DeSmuME_Memory.register_write(address, callback, size)`:
when the callback is not `None`, wrap it with `MEMORY_CB_FN`, append the
trampoline to `self._registered_cbs`, and forward it to the native
registration entry point; when it is `None`, forward `None` (removal)
leaving the owned collection unchanged.  The first component is the new
`_registered_cbs` list. -/
def DeSmuME_Memory.register_write (cbs : List NativeTrampoline) (address : Int)
    (callback : Option MemoryCbFn) (size : Int) :
    List NativeTrampoline × WatchCall :=
  match callback with
  | some cb =>
      (cbs ++ [MEMORY_CB_FN cb], .registerWrite address size (some (MEMORY_CB_FN cb)))
  | none => (cbs, .registerWrite address size none)

/-- Embedding of `DeSmuME_Memory.register_read(address, callback, size)`;
same structure as `register_write`, forwarding to the read-watchpoint
native entry point. -/
def DeSmuME_Memory.register_read (cbs : List NativeTrampoline) (address : Int)
    (callback : Option MemoryCbFn) (size : Int) :
    List NativeTrampoline × WatchCall :=
  match callback with
  | some cb =>
      (cbs ++ [MEMORY_CB_FN cb], .registerRead address size (some (MEMORY_CB_FN cb)))
  | none => (cbs, .registerRead address size none)

/-- Embedding of `DeSmuME_Memory.register_exec(address, callback, size)`;
same structure as `register_write`, forwarding to the exec-watchpoint
native entry point. -/
def DeSmuME_Memory.register_exec (cbs : List NativeTrampoline) (address : Int)
    (callback : Option MemoryCbFn) (size : Int) :
    List NativeTrampoline × WatchCall :=
  match callback with
  | some cb =>
      (cbs ++ [MEMORY_CB_FN cb], .registerExec address size (some (MEMORY_CB_FN cb)))
  | none => (cbs, .registerExec address size none)

/-- A facade watchpoint operation: one call of `register_write`,
`register_read` or `register_exec` (these are the only facade operations
that touch `_registered_cbs`). -/
inductive WatchOp
  | write (address : Int) (callback : Option MemoryCbFn) (size : Int)
  | read (address : Int) (callback : Option MemoryCbFn) (size : Int)
  | exec (address : Int) (callback : Option MemoryCbFn) (size : Int)

/-- Dispatch of a watchpoint operation to the matching registration
method, returning the new `_registered_cbs` list and the forwarded native
call. -/
def applyWatchOp (cbs : List NativeTrampoline) :
    WatchOp → List NativeTrampoline × WatchCall
  | .write a cb sz => DeSmuME_Memory.register_write cbs a cb sz
  | .read a cb sz => DeSmuME_Memory.register_read cbs a cb sz
  | .exec a cb sz => DeSmuME_Memory.register_exec cbs a cb sz

/-- State of `_registered_cbs` after a sequence of registration calls. -/
def runWatchOps (cbs : List NativeTrampoline) (ops : List WatchOp) :
    List NativeTrampoline :=
  ops.foldl (fun c op => (applyWatchOp c op).1) cbs

/-- Scanning loop of `DeSmuME_Memory.read_string`: starting at byte index
`i`, read one unsigned byte per step at `address + i` (the source uses
`self.unsigned.read_byte`, i.e. the facade's scalar unsigned byte read,
which is one `desmume_memory_read_byte` call) and collect bytes until the
first zero byte (excluded).  `fuel` bounds the number of loop iterations
so the embedding is total; the source's `while` loop simply does not
terminate when no zero byte is ever found.  The source's growable
`bytearray` buffer (initial capacity 50, grown by 50) is represented by
the accumulated list: the returned value is `string_buff[:i]`, exactly
the bytes written, in order. -/
def scanFrom (port : MemoryPort) (address : Int) :
    Nat → Nat → Option (List Nat)
  | 0, i => if port.readByte (address + (i : Int)) = 0 then some [] else none
  | f + 1, i =>
    let cur := port.readByte (address + (i : Int))
    if cur = 0 then some []
    else (scanFrom port address f (i + 1)).map (cur :: ·)

/-- Embedding of `DeSmuME_Memory.read_string(address, codec)`: scan to the
first zero byte, then decode the scanned bytes with the caller's codec.
The codec (Python `str(buffer, codec, 'ignore')`) is modelled as a total
function `List Nat → String`: the `'ignore'` error mode makes decoding
total — invalid byte sequences are dropped, never raised.  `none` means
the loop did not terminate within `fuel` iterations. -/
def DeSmuME_Memory.read_string (port : MemoryPort) (address : Int)
    (codec : List Nat → String) (fuel : Nat) : Option String :=
  (scanFrom port address fuel 0).map codec

/-- A concrete lossy codec: ASCII with non-ASCII bytes dropped.  On the
ASCII range this agrees with the source's default `windows-1255` codec
(whose first 128 code points are ASCII). -/
def decodeLossyASCII (bs : List Nat) : String :=
  String.mk ((bs.filter (fun b => b < 128)).map Char.ofNat)

/-- MemoryPort holding the bytes `[72, 101, 108, 108, 111, 0]`
(`"Hello\0"`) at addresses `0..5`, zero elsewhere. -/
def helloPort : MemoryPort :=
  { zeroPort with
    readByte := fun a =>
      if a = 0 then 72 else if a = 1 then 101 else if a = 2 then 108
      else if a = 3 then 108 else if a = 4 then 111 else 0 }

/-- Register store holding 0 in every register (used to instantiate
universally quantified theorems at a concrete store). -/
def zeroRegs : RegState := ⟨fun _ => 0⟩

/-! Helper lemmas about `pyRange`. -/

lemma pyRange_empty (a b s : Int) (h : b ≤ a) : pyRange a b s = [] := by
  unfold pyRange
  rw [if_pos h]
  simp

lemma pyRange_single (a s : Int) (hs : 1 ≤ s) : pyRange a (a + s) s = [a] := by
  unfold pyRange
  rw [if_neg (by omega)]
  have h1 : a + s - a - 1 = s - 1 := by ring
  rw [h1, Int.ediv_eq_zero_of_lt (by omega) (by omega)]
  simp [List.range_succ]

lemma pyRange_oneStep (a s : Int) : pyRange a (a + 1) s = [a] := by
  unfold pyRange
  rw [if_neg (by omega)]
  have h1 : a + 1 - a - 1 = 0 := by ring
  rw [h1, Int.zero_ediv]
  simp [List.range_succ]

lemma pyRange_step1 (a : Int) (n : Nat) :
    pyRange a (a + (n : Int)) 1 = (List.range n).map (fun (i : Nat) => a + (i : Int)) := by
  unfold pyRange
  rcases Nat.eq_zero_or_pos n with h | h
  · subst h; simp
  · rw [if_neg (by omega)]
    have hc : ((a + (n : Int) - a - 1) / 1 + 1).toNat = n := by omega
    rw [hc]
    simp

/-- C1: Scalar/range duality.  For every address `a`, size `s ∈ {1,2,4}`
and signedness flag, `read(a, a, s, signed)` returns a scalar equal to the
element at index 0 of `read(a, a+s, s, signed)` against the same
MemoryPort state. -/
theorem scalar_range_duality (port : MemoryPort) (a s : Int) (signed : Bool)
    (hs : s = 1 ∨ s = 2 ∨ s = 4) :
    ∃ v res tr1 tr2,
      DeSmuME_Memory.read port a a (some s) signed = (.ok (.scalar v), tr1) ∧
      DeSmuME_Memory.read port a (a + s) (some s) signed = (.ok res, tr2) ∧
      res.index 0 = some v := by
  rcases hs with rfl | rfl | rfl <;> cases signed
  · refine ⟨(port.readByte a : Int), .block [port.readByte a],
      [.readByte a], [.readByte a], ?_, ?_, ?_⟩
    · simp [DeSmuME_Memory.read]
    · have h1 : a ≠ a + 1 := by omega
      have h2 : ¬(a + 1 - a < 0) := by omega
      simp [DeSmuME_Memory.read, h1, h2, pyRange_single]
    · simp [ReadResult.index]
  · refine ⟨port.readByteSigned a, .ints [port.readByteSigned a],
      [.readByteSigned a], [.readByteSigned a], ?_, ?_, ?_⟩
    · simp [DeSmuME_Memory.read]
    · have h1 : a ≠ a + 1 := by omega
      simp [DeSmuME_Memory.read, h1, pyRange_single]
    · simp [ReadResult.index]
  · refine ⟨(port.readShort a : Int), .ints [(port.readShort a : Int)],
      [.readShort a], [.readShort a], ?_, ?_, ?_⟩
    · simp [DeSmuME_Memory.read]
    · have h1 : a ≠ a + 2 := by omega
      simp [DeSmuME_Memory.read, h1, pyRange_single]
    · simp [ReadResult.index]
  · refine ⟨port.readShortSigned a, .ints [port.readShortSigned a],
      [.readShortSigned a], [.readShortSigned a], ?_, ?_, ?_⟩
    · simp [DeSmuME_Memory.read]
    · have h1 : a ≠ a + 2 := by omega
      simp [DeSmuME_Memory.read, h1, pyRange_single]
    · simp [ReadResult.index]
  · refine ⟨(port.readLong a : Int), .ints [(port.readLong a : Int)],
      [.readLong a], [.readLong a], ?_, ?_, ?_⟩
    · simp [DeSmuME_Memory.read]
    · have h1 : a ≠ a + 4 := by omega
      simp [DeSmuME_Memory.read, h1, pyRange_single]
    · simp [ReadResult.index]
  · refine ⟨port.readLongSigned a, .ints [port.readLongSigned a],
      [.readLongSigned a], [.readLongSigned a], ?_, ?_, ?_⟩
    · simp [DeSmuME_Memory.read]
    · have h1 : a ≠ a + 4 := by omega
      simp [DeSmuME_Memory.read, h1, pyRange_single]
    · simp [ReadResult.index]

/-- Witness for C1 at a concrete input (`zeroPort`, address 0, size 2,
unsigned). -/
theorem scalar_range_duality_witness :
    ∃ v res tr1 tr2,
      DeSmuME_Memory.read zeroPort 0 0 (some 2) false = (.ok (.scalar v), tr1) ∧
      DeSmuME_Memory.read zeroPort 0 (0 + 2) (some 2) false = (.ok res, tr2) ∧
      res.index 0 = some v :=
  scalar_range_duality zeroPort 0 2 false (Or.inr (Or.inl rfl))

/-- Helper: every trace element produced by `writeUnits mk m` is an
application of `mk`. -/
lemma writeUnits_calls (mk : Int → Nat → Call) (m : Int)
    (hmk : ∀ p q, (mk p q).isUnsignedWrite = true) :
    ∀ addrs value i, ∀ c ∈ (writeUnits mk m addrs value i).2,
      c.isUnsignedWrite = true := by
  intro addrs
  induction addrs with
  | nil => intro value i c hc; simp [writeUnits] at hc
  | cons a rest ih =>
    intro value i c hc
    unfold writeUnits at hc
    split at hc
    · simp only [List.mem_cons] at hc
      rcases hc with rfl | hc2
      · exact hmk _ _
      · exact ih value (i + 1) c hc2
    · simp at hc

/-- C2: Byte-block identity and exclusivity.  For `n > 0`,
`read(a, a+n, 1, signed=False)` returns a bytes block of exactly `n`
bytes, byte `i` being the unsigned byte read at `a+i`; a bytes block is
returned only for that combination (`signed=False`, `size=1`,
`start ≠ end`); every other valid range combination returns an ordered
list of decoded integers in ascending-address iteration order. -/
theorem byte_block_identity (port : MemoryPort) (a : Int) :
    (∀ n : Nat, 0 < n →
      DeSmuME_Memory.read port a (a + (n : Int)) (some 1) false =
        (.ok (.block ((List.range n).map fun (i : Nat) => port.readByte (a + (i : Int)))),
         (List.range n).map fun (i : Nat) => Call.readByte (a + (i : Int))) ∧
      ((List.range n).map fun (i : Nat) => port.readByte (a + (i : Int))).length = n ∧
      (∀ i : Nat, i < n →
        ((List.range n).map fun (j : Nat) => port.readByte (a + (j : Int))).get? i =
          some (port.readByte (a + (i : Int))))) ∧
    (∀ start stop s : Int, ∀ signed : Bool, ∀ b : List Nat, ∀ tr : List Call,
      DeSmuME_Memory.read port start stop (some s) signed = (.ok (.block b), tr) →
      signed = false ∧ s = 1 ∧ start ≠ stop) ∧
    (∀ start stop s : Int, ∀ signed : Bool,
      (s = 1 ∨ s = 2 ∨ s = 4) → start ≠ stop → ¬(signed = false ∧ s = 1) →
      ∃ tr, DeSmuME_Memory.read port start stop (some s) signed =
        (.ok (.ints ((pyRange start stop s).map (unitRead port signed s))), tr)) := by
  refine ⟨?_, ?_, ?_⟩
  · intro n hn
    have h1 : a ≠ a + (n : Int) := by omega
    have h2 : ¬(a + (n : Int) - a < 0) := by omega
    have h3 : ¬((n : Int) < 0) := by omega
    refine ⟨?_, by rw [List.length_map, List.length_range], ?_⟩
    · simp [DeSmuME_Memory.read, h1, h2, h3, pyRange_step1, List.map_map,
        Function.comp_def]
    · intro i hi
      rw [List.get?_map, List.get?_range hi]
      rfl
  · intro start stop s signed b tr h
    unfold DeSmuME_Memory.read at h
    simp only [Option.getD_some] at h
    by_cases hss : start = stop
    all_goals cases signed
    all_goals first | rw [if_pos hss] at h | rw [if_neg hss] at h
    all_goals repeat' split at h
    all_goals simp_all
  · intro start stop s signed hs hne hnot
    rcases hs with rfl | rfl | rfl <;> cases signed
    · exact absurd ⟨rfl, rfl⟩ hnot
    · exact ⟨(pyRange start stop 1).map Call.readByteSigned,
        by simp [DeSmuME_Memory.read, hne, unitRead]⟩
    · exact ⟨(pyRange start stop 2).map Call.readShort,
        by simp [DeSmuME_Memory.read, hne, unitRead]⟩
    · exact ⟨(pyRange start stop 2).map Call.readShortSigned,
        by simp [DeSmuME_Memory.read, hne, unitRead]⟩
    · exact ⟨(pyRange start stop 4).map Call.readLong,
        by simp [DeSmuME_Memory.read, hne, unitRead]⟩
    · exact ⟨(pyRange start stop 4).map Call.readLongSigned,
        by simp [DeSmuME_Memory.read, hne, unitRead]⟩

/-- Witness for C2 at a concrete input: two bytes read from `zeroPort`
starting at address 0. -/
theorem byte_block_identity_witness :
    DeSmuME_Memory.read zeroPort 0 (0 + ((2 : Nat) : Int)) (some 1) false =
      (.ok (.block [0, 0]), [Call.readByte 0, Call.readByte 1]) := by
  have h := ((byte_block_identity zeroPort 0).1 2 (by decide)).1
  rw [h]
  rfl

/-- C3 counterexample: on the unsigned size-1 path, `read` with
`end < start` does NOT return an empty bytes block — the
`bytearray(int(end - start))` constructor raises `ValueError` (negative
count).  Concretely, `read(1, 0, 1, signed=False)` raises. -/
theorem empty_range_unsigned_byte_raises :
    DeSmuME_Memory.read zeroPort 1 0 (some 1) false = (.error .valueError, []) := by
  rfl

/-- C3 as amended: for `end < start` and a valid size, `read` issues no
MemoryPort unit read; on every combination except
(`signed=False`, `size=1`) it returns an empty list without error, while
on the unsigned size-1 path it raises `ValueError` (from the negative
`bytearray` count) instead of returning an empty bytes block. -/
theorem empty_range_safety (port : MemoryPort) (start stop s : Int)
    (signed : Bool) (hs : s = 1 ∨ s = 2 ∨ s = 4) (hlt : stop < start) :
    (¬(signed = false ∧ s = 1) →
      DeSmuME_Memory.read port start stop (some s) signed = (.ok (.ints []), [])) ∧
    (signed = false ∧ s = 1 →
      DeSmuME_Memory.read port start stop (some s) signed = (.error .valueError, [])) := by
  have hne : start ≠ stop := by omega
  have hneg : stop - start < 0 := by omega
  have he : ∀ t : Int, pyRange start stop t = [] :=
    fun t => pyRange_empty _ _ _ (by omega)
  constructor
  · intro hno
    rcases hs with rfl | rfl | rfl <;> cases signed <;>
      simp_all [DeSmuME_Memory.read, he]
  · rintro ⟨h1, h2⟩
    subst h1; subst h2
    simp [DeSmuME_Memory.read, hne, hneg]

/-- Witness for C3's amended theorem at a concrete input
(`start = 1 > 0 = end`, size 2, signed). -/
theorem empty_range_safety_witness :
    (¬(true = false ∧ (2 : Int) = 1) →
      DeSmuME_Memory.read zeroPort 1 0 (some 2) true = (.ok (.ints []), [])) ∧
    (true = false ∧ (2 : Int) = 1 →
      DeSmuME_Memory.read zeroPort 1 0 (some 2) true = (.error .valueError, [])) :=
  empty_range_safety zeroPort 1 0 2 true (Or.inr (Or.inl rfl)) (by decide)

/-- C4: Invalid size rejection with atomicity.  For every size outside
{1,2,4}, both `read` and `write` raise `ValueError` with an empty
MemoryPort trace (no partial I/O; the size is never coerced to a valid
one). -/
theorem invalid_size_rejection (port : MemoryPort) (start stop s : Int)
    (signed : Bool) (v : List Int) (hs : s ≠ 1 ∧ s ≠ 2 ∧ s ≠ 4) :
    DeSmuME_Memory.read port start stop (some s) signed = (.error .valueError, []) ∧
    DeSmuME_Memory.write start stop (some s) v = (.error .valueError, []) := by
  obtain ⟨h1, h2, h4⟩ := hs
  constructor
  · by_cases hss : start = stop <;> cases signed <;>
      simp [DeSmuME_Memory.read, hss, h1, h2, h4]
  · simp [DeSmuME_Memory.write, h1, h2, h4]

/-- Witness for C4 at the concrete invalid size 3. -/
theorem invalid_size_rejection_witness :
    DeSmuME_Memory.read zeroPort 0 5 (some 3) false = (.error .valueError, []) ∧
    DeSmuME_Memory.write 0 5 (some 3) [7] = (.error .valueError, []) :=
  invalid_size_rejection zeroPort 0 5 3 false [7] (by decide)

/-- C5: Write-at-least-one and unsigned-only writes.  For `s ∈ {1,2,4}`
and a non-empty value list, `write(a, a, s, values)` performs exactly one
unit write — the unsigned entry point of size `s` at address `a` with
`values[0]` (ctypes-truncated) — and every unit write `write` ever issues
uses an unsigned entry point. -/
theorem write_at_least_one (a s : Int) (x : Int) (rest : List Int)
    (hs : s = 1 ∨ s = 2 ∨ s = 4) :
    DeSmuME_Memory.write a a (some s) (x :: rest) =
      (.ok (), [unsignedWriteCall s a x]) ∧
    (unsignedWriteCall s a x).isUnsignedWrite = true ∧
    (∀ start stop : Int, ∀ size? : Option Int, ∀ v : List Int,
      ∀ c ∈ (DeSmuME_Memory.write start stop size? v).2,
        c.isUnsignedWrite = true) := by
  refine ⟨?_, ?_, ?_⟩
  · rcases hs with rfl | rfl | rfl <;>
      simp [DeSmuME_Memory.write, pyRange_oneStep, writeUnits, unsignedWriteCall]
  · rcases hs with rfl | rfl | rfl <;> simp [unsignedWriteCall, Call.isUnsignedWrite]
  · intro start stop size? v c hc
    simp only [DeSmuME_Memory.write] at hc
    by_cases h1 : size? = some 1
    · rw [if_pos h1] at hc
      exact writeUnits_calls Call.writeByte 256 (fun _ _ => rfl) _ _ _ c hc
    · rw [if_neg h1] at hc
      by_cases h2 : size? = some 2
      · rw [if_pos h2] at hc
        exact writeUnits_calls Call.writeShort 65536 (fun _ _ => rfl) _ _ _ c hc
      · rw [if_neg h2] at hc
        by_cases h4 : size? = some 4
        · rw [if_pos h4] at hc
          exact writeUnits_calls Call.writeLong 4294967296 (fun _ _ => rfl) _ _ _ c hc
        · rw [if_neg h4] at hc
          simp at hc

/-- Witness for C5 at a concrete input: one byte write of `300 mod 256 =
44` at address 0. -/
theorem write_at_least_one_witness :
    DeSmuME_Memory.write 0 0 (some 1) [300] = (.ok (), [Call.writeByte 0 44]) := by
  have h := (write_at_least_one 0 1 300 [] (Or.inl rfl)).1
  rw [h]
  rfl

/-! Helper lemmas for the register accessor. -/

lemma range16_eq : List.range 16 = [0,1,2,3,4,5,6,7,8,9,10,11,12,13,14,15] := rfl

/-- Helper: positional setter on an in-range index writes the matching
register and still ends in the unconditional raise. -/
lemma setitem_inRange (pfx : String) (s : RegState) (v : Int) (item : Int)
    (h0 : 0 ≤ item) (h15 : item ≤ 15) :
    RegisterAccessor.setitem pfx item v s =
      (.error .valueError, s.write (pfx ++ "r" ++ toString item.toNat) v,
       [RegCall.write (pfx ++ "r" ++ toString item.toNat) v]) := by
  interval_cases item <;>
    simp [RegisterAccessor.setitem, range16_eq, RegisterAccessor.setStep,
      RegisterAccessor.rset]

/-- Helper: positional getter on an in-range index returns the register
value with exactly one named read, without raising. -/
lemma getitem_inRange (pfx : String) (s : RegState) (item : Int)
    (h0 : 0 ≤ item) (h15 : item ≤ 15) :
    RegisterAccessor.getitem pfx s item =
      (.ok (s.regs (pfx ++ "r" ++ toString item.toNat)),
       [RegCall.read (pfx ++ "r" ++ toString item.toNat)]) := by
  interval_cases item <;> simp [RegisterAccessor.getitem, RegisterAccessor.rget]

/-- Helper: positional access on an out-of-range index raises with no
register access and no state change. -/
lemma register_outOfRange (pfx : String) (s : RegState) (v : Int) (item : Int)
    (h : item < 0 ∨ 15 < item) :
    RegisterAccessor.setitem pfx item v s = (.error .valueError, s, []) ∧
    RegisterAccessor.getitem pfx s item = (.error .valueError, []) := by
  have e0 : item ≠ 0 := by omega
  have e1 : item ≠ 1 := by omega
  have e2 : item ≠ 2 := by omega
  have e3 : item ≠ 3 := by omega
  have e4 : item ≠ 4 := by omega
  have e5 : item ≠ 5 := by omega
  have e6 : item ≠ 6 := by omega
  have e7 : item ≠ 7 := by omega
  have e8 : item ≠ 8 := by omega
  have e9 : item ≠ 9 := by omega
  have e10 : item ≠ 10 := by omega
  have e11 : item ≠ 11 := by omega
  have e12 : item ≠ 12 := by omega
  have e13 : item ≠ 13 := by omega
  have e14 : item ≠ 14 := by omega
  have e15 : item ≠ 15 := by omega
  constructor
  · simp [RegisterAccessor.setitem, range16_eq, RegisterAccessor.setStep,
      e0, e1, e2, e3, e4, e5, e6, e7, e8, e9, e10, e11, e12, e13, e14, e15]
  · simp [RegisterAccessor.getitem,
      e0, e1, e2, e3, e4, e5, e6, e7, e8, e9, e10, e11, e12, e13, e14, e15]

/-- C6: Register positional-setter fallthrough.  For every in-range slot
index, `__setitem__` issues the named register write (prefix ++ "r" ++
index) and then still raises `ValueError` (the source's sequential ifs
have no early return, so control falls through to the unconditional
raise); `__getitem__` on the same indices returns the value without
raising; an out-of-range index raises with no register access. -/
theorem register_setitem_fallthrough (pfx : String) (s : RegState) (v : Int) :
    (∀ item : Int, 0 ≤ item → item ≤ 15 →
      RegisterAccessor.setitem pfx item v s =
        (.error .valueError, s.write (pfx ++ "r" ++ toString item.toNat) v,
         [RegCall.write (pfx ++ "r" ++ toString item.toNat) v])) ∧
    (∀ item : Int, 0 ≤ item → item ≤ 15 →
      RegisterAccessor.getitem pfx s item =
        (.ok (s.regs (pfx ++ "r" ++ toString item.toNat)),
         [RegCall.read (pfx ++ "r" ++ toString item.toNat)])) ∧
    (∀ item : Int, item < 0 ∨ 15 < item →
      RegisterAccessor.setitem pfx item v s = (.error .valueError, s, []) ∧
      RegisterAccessor.getitem pfx s item = (.error .valueError, [])) :=
  ⟨fun item h0 h15 => setitem_inRange pfx s v item h0 h15,
   fun item h0 h15 => getitem_inRange pfx s item h0 h15,
   fun item h => register_outOfRange pfx s v item h⟩

/-- Witness for C6 at a concrete input: setting slot 13 writes `arm9.r13`
and still raises. -/
theorem register_setitem_fallthrough_witness :
    RegisterAccessor.setitem "arm9." 13 7 zeroRegs =
      (.error .valueError, zeroRegs.write "arm9.r13" 7,
       [RegCall.write "arm9.r13" 7]) := by
  rw [(register_setitem_fallthrough "arm9." zeroRegs 7).1 13 (by decide) (by decide)]
  rfl

/-- Helper: appending the same string on the left preserves
distinguishability of the right parts. -/
lemma string_append_right_inj (p a b : String) (h : p ++ a = p ++ b) : a = b := by
  have hd : (p ++ a).data = (p ++ b).data := by rw [h]
  simp only [String.data_append] at hd
  exact String.ext (List.append_cancel_left hd)

/-- C7: Register alias equivalence.  `sp` / `lr` / `pc` forward reads and
writes to `r13` / `r14` / `r15` (issuing the very same named MemoryPort
operation), so after the positional set of slot 13 (which writes before
raising), reading `sp` yields the written value, and symmetrically for
`lr`/r14 and `pc`/r15; `cpsr` and `spsr` are independent named registers
whose names differ from every numbered slot name, so numbered writes never
touch them. -/
theorem register_alias_equivalence (pfx : String) (s : RegState) (v : Int) :
    (RegisterAccessor.sp pfx s = RegisterAccessor.rget pfx 13 s ∧
     RegisterAccessor.lr pfx s = RegisterAccessor.rget pfx 14 s ∧
     RegisterAccessor.pc pfx s = RegisterAccessor.rget pfx 15 s ∧
     RegisterAccessor.spSet pfx v s = RegisterAccessor.rset pfx 13 v s ∧
     RegisterAccessor.lrSet pfx v s = RegisterAccessor.rset pfx 14 v s ∧
     RegisterAccessor.pcSet pfx v s = RegisterAccessor.rset pfx 15 v s) ∧
    ((RegisterAccessor.sp pfx (RegisterAccessor.setitem pfx 13 v s).2.1).1 = v ∧
     (RegisterAccessor.lr pfx (RegisterAccessor.setitem pfx 14 v s).2.1).1 = v ∧
     (RegisterAccessor.pc pfx (RegisterAccessor.setitem pfx 15 v s).2.1).1 = v) ∧
    (∀ n : Fin 16,
      pfx ++ "cpsr" ≠ pfx ++ "r" ++ toString (n : Nat) ∧
      pfx ++ "spsr" ≠ pfx ++ "r" ++ toString (n : Nat) ∧
      (RegisterAccessor.cpsrGet pfx (RegisterAccessor.rset pfx (n : Nat) v s).1).1 =
        (RegisterAccessor.cpsrGet pfx s).1 ∧
      (RegisterAccessor.spsrGet pfx (RegisterAccessor.rset pfx (n : Nat) v s).1).1 =
        (RegisterAccessor.spsrGet pfx s).1) := by
  refine ⟨⟨rfl, rfl, rfl, rfl, rfl, rfl⟩, ⟨?_, ?_, ?_⟩, ?_⟩
  · rw [setitem_inRange pfx s v 13 (by norm_num) (by norm_num)]
    simp [RegisterAccessor.sp, RegisterAccessor.rget, RegState.write]
  · rw [setitem_inRange pfx s v 14 (by norm_num) (by norm_num)]
    simp [RegisterAccessor.lr, RegisterAccessor.rget, RegState.write]
  · rw [setitem_inRange pfx s v 15 (by norm_num) (by norm_num)]
    simp [RegisterAccessor.pc, RegisterAccessor.rget, RegState.write]
  · intro n
    have hcp : pfx ++ "cpsr" ≠ pfx ++ "r" ++ toString (n : Nat) := by
      have hne : "cpsr" ≠ "r" ++ toString (n : Nat) := by fin_cases n <;> decide
      intro h
      rw [String.append_assoc] at h
      exact hne (string_append_right_inj pfx _ _ h)
    have hsp : pfx ++ "spsr" ≠ pfx ++ "r" ++ toString (n : Nat) := by
      have hne : "spsr" ≠ "r" ++ toString (n : Nat) := by fin_cases n <;> decide
      intro h
      rw [String.append_assoc] at h
      exact hne (string_append_right_inj pfx _ _ h)
    refine ⟨hcp, hsp, ?_, ?_⟩
    · simp [RegisterAccessor.cpsrGet, RegisterAccessor.rset, RegState.write, hcp]
    · simp [RegisterAccessor.spsrGet, RegisterAccessor.rset, RegState.write, hsp]

/-- Witness for C7 at a concrete input: after setting slot 13 to 5,
reading `sp` yields 5. -/
theorem register_alias_equivalence_witness :
    (RegisterAccessor.sp "arm9."
      (RegisterAccessor.setitem "arm9." 13 5 zeroRegs).2.1).1 = 5 :=
  (register_alias_equivalence "arm9." zeroRegs 5).2.1.1

/-- Helper: when the first zero byte after `address + i` sits exactly `n`
steps away, the scan loop terminates within any fuel of at least `n` and
collects exactly the `n` nonzero bytes, in address order. -/
lemma scanFrom_spec (port : MemoryPort) (a : Int) :
    ∀ (n i fuel : Nat),
      port.readByte (a + (i : Int) + (n : Int)) = 0 →
      (∀ k : Nat, k < n → port.readByte (a + (i : Int) + (k : Int)) ≠ 0) →
      n ≤ fuel →
      scanFrom port a fuel i =
        some ((List.range n).map
          fun (k : Nat) => port.readByte (a + (i : Int) + (k : Int))) := by
  intro n
  induction n with
  | zero =>
    intro i fuel h0 hnz hf
    simp only [Nat.cast_zero, add_zero] at h0
    cases fuel <;> simp [scanFrom, h0]
  | succ n ih =>
    intro i fuel h0 hnz hf
    obtain ⟨f, rfl⟩ : ∃ f, fuel = f + 1 := ⟨fuel - 1, by omega⟩
    have hcur : port.readByte (a + (i : Int)) ≠ 0 := by
      have := hnz 0 (by omega)
      simpa using this
    simp only [scanFrom]
    rw [if_neg hcur]
    have hsh : ∀ k : Nat, a + ((i + 1 : Nat) : Int) + (k : Int) =
        a + (i : Int) + ((k + 1 : Nat) : Int) := by
      intro k; push_cast; ring
    have ih2 := ih (i + 1) f ?_ ?_ (by omega)
    · rw [ih2]
      refine congrArg some ?_
      rw [List.range_succ_eq_map]
      simp only [List.map_cons, List.map_map]
      congr 1
      · simp
      · refine List.map_congr_left ?_
        intro k _
        simp only [Function.comp_apply]
        rw [hsh k]
    · rw [hsh n]
      exact h0
    · intro k hk
      rw [hsh k]
      exact hnz (k + 1) (by omega)

/-- C8: String reader termination and decoding.  When the MemoryPort holds
a zero byte `n` steps after `address` with all earlier bytes nonzero,
`read_string` terminates (any fuel of at least `n` iterations suffices),
scans exactly the `n` bytes before the first zero byte, one unsigned byte
read per address in ascending order, and returns them decoded with the
caller's codec (total because the `'ignore'` error mode suppresses
invalid-byte-sequence errors). -/
theorem read_string_terminates (port : MemoryPort) (a : Int) (n : Nat)
    (codec : List Nat → String)
    (h0 : port.readByte (a + (n : Int)) = 0)
    (hnz : ∀ k : Nat, k < n → port.readByte (a + (k : Int)) ≠ 0) :
    ∀ fuel : Nat, n ≤ fuel →
      DeSmuME_Memory.read_string port a codec fuel =
        some (codec ((List.range n).map
          fun (k : Nat) => port.readByte (a + (k : Int)))) := by
  intro fuel hf
  unfold DeSmuME_Memory.read_string
  rw [scanFrom_spec port a n 0 fuel (by simpa using h0)
    (by intro k hk; simpa using hnz k hk) hf]
  simp

/-- Witness for C8: reading from `helloPort` (bytes `"Hello\0"` at 0..5)
with the lossy ASCII codec returns `"Hello"`, terminator excluded. -/
theorem read_string_terminates_witness :
    DeSmuME_Memory.read_string helloPort 0 decodeLossyASCII 5 = some "Hello" := by
  rw [read_string_terminates helloPort 0 5 decodeLossyASCII (by decide)
    (by decide) 5 (by decide)]
  rfl

/-- Helper: a single watchpoint registration only ever appends to the
owned-trampoline collection. -/
lemma applyWatchOp_extends (cbs : List NativeTrampoline) (op : WatchOp) :
    ∃ extra, (applyWatchOp cbs op).1 = cbs ++ extra := by
  rcases op with ⟨a, cb, sz⟩ | ⟨a, cb, sz⟩ | ⟨a, cb, sz⟩ <;> cases cb <;>
    first
      | exact ⟨_, rfl⟩
      | exact ⟨[], by simp [applyWatchOp, DeSmuME_Memory.register_write,
          DeSmuME_Memory.register_read, DeSmuME_Memory.register_exec]⟩

/-- Helper: the owned-trampoline collection's length never decreases over
any sequence of registration calls. -/
lemma runWatchOps_length : ∀ (ops : List WatchOp) (cbs : List NativeTrampoline),
    cbs.length ≤ (runWatchOps cbs ops).length := by
  intro ops
  induction ops with
  | nil => intro cbs; simp [runWatchOps]
  | cons op rest ih =>
    intro cbs
    have h1 : cbs.length ≤ ((applyWatchOp cbs op).1).length := by
      obtain ⟨extra, he⟩ := applyWatchOp_extends cbs op
      rw [he]
      simp
    have h2 := ih (applyWatchOp cbs op).1
    simpa [runWatchOps] using le_trans h1 h2

/-- C9: Watchpoint trampoline retention invariant.  Every registration
call only appends to `_registered_cbs` (so its length never decreases over
any operation sequence, and no facade operation removes from it); a
non-null callback is wrapped with `MEMORY_CB_FN` into a native trampoline,
appended, and forwarded as `(address, size, trampoline)` to the matching
native entry point; a null callback forwards `(address, size, None)` to
signal removal, leaving the collection unchanged. -/
theorem watchpoint_retention (cbs : List NativeTrampoline) :
    (∀ op : WatchOp, ∃ extra, (applyWatchOp cbs op).1 = cbs ++ extra) ∧
    (∀ ops : List WatchOp, cbs.length ≤ (runWatchOps cbs ops).length) ∧
    (∀ a sz : Int, ∀ cb : MemoryCbFn,
      DeSmuME_Memory.register_write cbs a (some cb) sz =
        (cbs ++ [MEMORY_CB_FN cb], .registerWrite a sz (some (MEMORY_CB_FN cb))) ∧
      DeSmuME_Memory.register_read cbs a (some cb) sz =
        (cbs ++ [MEMORY_CB_FN cb], .registerRead a sz (some (MEMORY_CB_FN cb))) ∧
      DeSmuME_Memory.register_exec cbs a (some cb) sz =
        (cbs ++ [MEMORY_CB_FN cb], .registerExec a sz (some (MEMORY_CB_FN cb)))) ∧
    (∀ a sz : Int,
      DeSmuME_Memory.register_write cbs a none sz = (cbs, .registerWrite a sz none) ∧
      DeSmuME_Memory.register_read cbs a none sz = (cbs, .registerRead a sz none) ∧
      DeSmuME_Memory.register_exec cbs a none sz = (cbs, .registerExec a sz none)) :=
  ⟨fun op => applyWatchOp_extends cbs op,
   fun ops => runWatchOps_length ops cbs,
   fun _ _ _ => ⟨rfl, rfl, rfl⟩,
   fun _ _ => ⟨rfl, rfl, rfl⟩⟩

/-- C10: Asymmetric handling of an omitted stride.  `read` treats
`size = None` as size 1 (so a stepless slice read through
`MemoryAccessor.__getitem__` is a size-1 read), whereas `write` has no
such default: a stepless slice through `__setitem__` raises `ValueError`
with no MemoryPort write issued. -/
theorem stepless_slice_asymmetry (port : MemoryPort) (a b : Int)
    (signed : Bool) (v : List Int) :
    DeSmuME_Memory.read port a b none signed =
      DeSmuME_Memory.read port a b (some 1) signed ∧
    MemoryAccessor.getitem signed port (.slice a b none) =
      DeSmuME_Memory.read port a b (some 1) signed ∧
    MemoryAccessor.setitemSlice a b none v = (.error .valueError, []) := by
  refine ⟨rfl, rfl, ?_⟩
  simp [MemoryAccessor.setitemSlice, DeSmuME_Memory.write]

end Desmume
